import Mathlib

/-!
# Verification of the ink-ratio-canvas core engines

Shallow embedding of the pixel-classification / ratio engine
(`src/utils/analysis.ts`), the comparison engine (`src/utils/comparison.ts`)
and the flood-fill region grower (`src/utils/floodFill.ts`).

Conventions of the embedding:
* Pixel channels are natural numbers (byte samples); coordinates that the
  source manipulates as JS numbers (possibly fractional or negative) are
  rationals `ℚ`, and integer loop counters are `ℕ`/`ℤ`.
* The raster (`ImageData`) is a width, a height and a pixel lookup function;
  the source's flat `data` array is only ever read through coordinates, so
  the lookup abstracts the row-major indexing.
* The source compares `Math.sqrt(dsq) > t`.  Real square roots are avoided
  by comparing squares: for `t ≥ 0` the comparison is equivalent to
  `dsq > t²`, and a negative `t` is always exceeded (`sqrt ≥ 0`).
* JS `Set<string>` keyed by `"x,y"` becomes `Finset (ℕ × ℕ)` (the key is in
  bijection with the coordinate pair).
* The single JS numeric value that can become `Infinity`
  (`relativeDifference`) is modelled by an explicit two-constructor type.
-/

/-! ## Data model and ink classifier (`types/index.ts`, `analysis.ts`) -/

/-- One RGBA sample (byte channels). -/
structure Rgba where
  r : ℕ
  g : ℕ
  b : ℕ
  a : ℕ
deriving DecidableEq, Repr

/-- A background / reference color, three byte channels. -/
structure Color where
  r : ℕ
  g : ℕ
  b : ℕ
deriving DecidableEq, Repr

/-- The raster buffer: dimensions plus pixel lookup (row-major `data` array
abstracted as a function of the coordinates). -/
structure ImageData where
  width : ℕ
  height : ℕ
  pix : ℕ → ℕ → Rgba

/-- Squared Euclidean RGB distance.  `colorDistance` in the source is its
square root; every use site only compares the distance against a threshold,
which is embedded via `distExceeds` below. -/
def colorDistSq (r1 g1 b1 r2 g2 b2 : ℤ) : ℤ :=
  (r1 - r2) ^ 2 + (g1 - g2) ^ 2 + (b1 - b2) ^ 2

/-- `Math.sqrt dsq > t` for nonnegative `dsq`, expressed without square
roots: a negative threshold is always exceeded, otherwise compare squares. -/
def distExceeds (dsq : ℤ) (t : ℚ) : Bool :=
  if t < 0 then true else decide ((t ^ 2 : ℚ) < (dsq : ℚ))

/-- `isInkPixel` from `analysis.ts`: transparent pixels (alpha below 13,
~5% opacity) are never ink; otherwise ink iff the color distance from the
background strictly exceeds the threshold. -/
def isInkPixel (p : Rgba) (bg : Color) (inkThreshold : ℚ) : Bool :=
  if p.a < 13 then false
  else distExceeds (colorDistSq p.r p.g p.b bg.r bg.g bg.b) inkThreshold

/-- `getPixelData` from `analysis.ts`: reads a pixel with the coordinates
clamped into bounds (the `Math.max 0` part is absorbed by `ℕ`, and for
`width = 0` JS also clamps the index to `0`). -/
def getPixelData (img : ImageData) (x y : ℕ) : Rgba :=
  img.pix (min (img.width - 1) x) (min (img.height - 1) y)

/-- `LayerResult` from `types/index.ts`. -/
structure LayerResult where
  id : String
  label : String
  color : String
  isData : Bool
  totalPixels : ℕ
  inkPixels : ℕ
  countFullArea : Bool
deriving DecidableEq, Repr, Inhabited

/-- `AnalysisResult` from `types/index.ts`; ratios are rationals. -/
structure AnalysisResult where
  layers : List LayerResult
  totalImagePixels : ℕ
  totalInkPixels : ℕ
  totalDataPixels : ℕ
  totalNonDataPixels : ℕ
  densityRatio : ℚ
  efficiencyRatio : ℚ
deriving DecidableEq, Repr

/-! ## Comparison engine (`src/utils/comparison.ts`) -/

/-- A JS number that is either finite or positive infinity; only
`relativeDifference` can become infinite in the comparison engine. -/
inductive JsNum where
  | fin : ℚ → JsNum
  | posInf : JsNum
deriving DecidableEq, Repr

/-- JS `≥` against a finite constant (`Infinity >= c` is true). -/
def JsNum.ge : JsNum → ℚ → Bool
  | .fin q, c => decide (c ≤ q)
  | .posInf, _ => true

/-- The `metrics` record of `ComparisonResult`. -/
structure Metrics where
  absoluteDifference : ℚ
  relativeDifference : JsNum
  efficiencyGap : ℚ
  userEfficiency : ℚ
  referenceEfficiency : ℚ
deriving DecidableEq, Repr

/-- `calculateMetrics` from `comparison.ts`. -/
def calculateMetrics (userResult referenceResult : AnalysisResult) : Metrics :=
  let userEfficiency := userResult.efficiencyRatio
  let referenceEfficiency := referenceResult.efficiencyRatio
  let absoluteDifference := userEfficiency - referenceEfficiency
  let relativeDifference : JsNum :=
    if referenceEfficiency = 0 then
      (if 0 < userEfficiency then JsNum.posInf else JsNum.fin 0)
    else JsNum.fin (absoluteDifference / referenceEfficiency * 100)
  { absoluteDifference := absoluteDifference
    relativeDifference := relativeDifference
    efficiencyGap := |absoluteDifference|
    userEfficiency := userEfficiency
    referenceEfficiency := referenceEfficiency }

/-- The `breakdown` record of `ComparisonResult` (pixel-count differences
are integers). -/
structure Breakdown where
  dataInkDiff : ℤ
  nonDataInkDiff : ℤ
  excessNonDataInkDifference : ℤ
deriving DecidableEq, Repr

/-- `calculateBreakdown` from `comparison.ts`. -/
def calculateBreakdown (userResult referenceResult : AnalysisResult) : Breakdown :=
  let dataInkDiff := (userResult.totalDataPixels : ℤ) - referenceResult.totalDataPixels
  let nonDataInkDiff := (userResult.totalNonDataPixels : ℤ) - referenceResult.totalNonDataPixels
  { dataInkDiff := dataInkDiff
    nonDataInkDiff := nonDataInkDiff
    excessNonDataInkDifference := max 0 nonDataInkDiff }

/-- The grade computation of `generateInterpretation` (`comparison.ts`
lines 72-76): a pure function of `relativeDifference`.  The remaining
fields of the interpretation are presentation strings and are not part of
any claim. -/
def gradeOf (relativeDifference : JsNum) : String :=
  if relativeDifference.ge (-10) then "excellent"
  else if relativeDifference.ge (-25) then "good"
  else if relativeDifference.ge (-40) then "fair"
  else "poor"

/-- The metric/grade core of `compareToReference`: metrics come from
`calculateMetrics`, and the grade is computed from the metrics'
`relativeDifference` alone. -/
def compareGrade (userResult referenceResult : AnalysisResult) : String :=
  gradeOf (calculateMetrics userResult referenceResult).relativeDifference

/-- An analysis result carrying only an efficiency ratio, for concrete
comparison scenarios. -/
def resultWithEff (q : ℚ) : AnalysisResult :=
  { layers := []
    totalImagePixels := 0
    totalInkPixels := 0
    totalDataPixels := 0
    totalNonDataPixels := 0
    densityRatio := 0
    efficiencyRatio := q }

/-! ## Layered analysis engine (`src/utils/analysis.ts`) -/

/-- `SelectionBox` from `types/index.ts`; coordinates are JS numbers
(rationals here) and may be fractional or negative. -/
structure SelectionBox where
  id : String
  x : ℚ
  y : ℚ
  width : ℚ
  height : ℚ
  label : String
  color : String
  isData : Bool
  countFullArea : Bool
deriving DecidableEq, Repr, Inhabited

/-- `x1 = Math.max(0, Math.floor(x))` for a selection. -/
def boundX1 (s : SelectionBox) : ℤ := max 0 ⌊s.x⌋

/-- `y1 = Math.max(0, Math.floor(y))` for a selection. -/
def boundY1 (s : SelectionBox) : ℤ := max 0 ⌊s.y⌋

/-- `x2 = Math.min(width, Math.ceil(x + w))` for a selection. -/
def boundX2 (img : ImageData) (s : SelectionBox) : ℤ :=
  min (img.width : ℤ) ⌈s.x + s.width⌉

/-- `y2 = Math.min(height, Math.ceil(y + h))` for a selection. -/
def boundY2 (img : ImageData) (s : SelectionBox) : ℤ :=
  min (img.height : ℤ) ⌈s.y + s.height⌉

/-- The column indices `x1 ≤ px < x2` scanned for a selection (empty when
`x2 ≤ x1`, exactly as the JS `for` loop). -/
def regionCols (img : ImageData) (s : SelectionBox) : List ℕ :=
  List.range' (boundX1 s).toNat ((boundX2 img s).toNat - (boundX1 s).toNat)

/-- The row indices `y1 ≤ py < y2` scanned for a selection. -/
def regionRows (img : ImageData) (s : SelectionBox) : List ℕ :=
  List.range' (boundY1 s).toNat ((boundY2 img s).toNat - (boundY1 s).toNat)

/-- All `(px, py)` visited by the nested loops over a selection's clamped
rectangle, rows outer, columns inner. -/
def regionPixels (img : ImageData) (s : SelectionBox) : List (ℕ × ℕ) :=
  (regionRows img s).flatMap fun py =>
    (regionCols img s).map fun px => (px, py)

/-- Ink test for the pixel at coordinates `p` of the raster. -/
def inkAt (img : ImageData) (bg : Color) (t : ℚ) (p : ℕ × ℕ) : Bool :=
  isInkPixel (getPixelData img p.1 p.2) bg t

/-- One iteration of the inner loop of `analyzeImage`: state is
`(processedPixels, layerTotalPixels, layerInkPixels)`.  A pixel already in
the processed set is skipped; otherwise it is claimed and counted, as ink
unconditionally under `countFullArea` and by the ink test otherwise. -/
def claimPixel (img : ImageData) (bg : Color) (t : ℚ) (cfa : Bool)
    (st : Finset (ℕ × ℕ) × ℕ × ℕ) (p : ℕ × ℕ) : Finset (ℕ × ℕ) × ℕ × ℕ :=
  if p ∈ st.1 then st
  else (insert p st.1, st.2.1 + 1,
    st.2.2 + if cfa then 1 else if inkAt img bg t p then 1 else 0)

/-- The full rectangle scan for one selection, starting from the shared
processed set with both per-layer counters at zero. -/
def claimRegion (img : ImageData) (bg : Color) (t : ℚ) (s : SelectionBox)
    (processed : Finset (ℕ × ℕ)) : Finset (ℕ × ℕ) × ℕ × ℕ :=
  (regionPixels img s).foldl (claimPixel img bg t s.countFullArea) (processed, 0, 0)

/-- The `LayerResult` record built for one selection. -/
def mkLayer (s : SelectionBox) (tot ink : ℕ) : LayerResult :=
  { id := s.id, label := s.label, color := s.color, isData := s.isData
    totalPixels := tot, inkPixels := ink, countFullArea := s.countFullArea }

/-- The selection loop of `analyzeImage`: the JS code walks the array from
the last index down to 0, threading `processedPixels`, and `unshift`s each
layer, which is exactly this recursion (the tail — the later, higher
z-order selections — is processed first, and the current layer is consed
in front of the tail's layers). -/
def buildLayers (img : ImageData) (bg : Color) (t : ℚ) :
    List SelectionBox → Finset (ℕ × ℕ) → Finset (ℕ × ℕ) × List LayerResult
  | [], processed => (processed, [])
  | s :: rest, processed =>
    let pr := buildLayers img bg t rest processed
    let st := claimRegion img bg t s pr.1
    (st.1, mkLayer s st.2.1 st.2.2 :: pr.2)

/-- The whole-raster ink pre-pass of `analyzeImage` (rows outer, columns
inner). -/
def totalInkCount (img : ImageData) (bg : Color) (t : ℚ) : ℕ :=
  (List.range img.height).foldl
    (fun acc y =>
      (List.range img.width).foldl
        (fun acc2 x => if inkAt img bg t (x, y) then acc2 + 1 else acc2) acc)
    0

/-- `analyzeImage` from `analysis.ts`.  The source accumulates
`totalDataPixels` and `totalNonDataPixels` in one `forEach` with two
accumulators; here they are two folds over the same layer list. -/
def analyzeImage (img : ImageData) (selections : List SelectionBox)
    (bg : Color) (inkThreshold : ℚ) : AnalysisResult :=
  let totalImagePixels := img.width * img.height
  let totalInkPixels := totalInkCount img bg inkThreshold
  let layers := (buildLayers img bg inkThreshold selections ∅).2
  let totalDataPixels :=
    layers.foldl (fun acc l => if l.isData then acc + l.inkPixels else acc) 0
  let totalNonDataPixels :=
    layers.foldl (fun acc l => if l.isData then acc else acc + l.inkPixels) 0
  { layers := layers
    totalImagePixels := totalImagePixels
    totalInkPixels := totalInkPixels
    totalDataPixels := totalDataPixels
    totalNonDataPixels := totalNonDataPixels
    densityRatio :=
      if 0 < totalImagePixels then (totalDataPixels : ℚ) / (totalImagePixels : ℚ) else 0
    efficiencyRatio :=
      if 0 < totalInkPixels then (totalDataPixels : ℚ) / (totalInkPixels : ℚ) else 0 }

/-! ## Specification-side sets for the analysis engine -/

/-- The set of raster coordinates covered by a selection's clamped
rectangle. -/
def regionSet (img : ImageData) (s : SelectionBox) : Finset (ℕ × ℕ) :=
  (regionPixels img s).toFinset

/-- Union of the clamped rectangles of a list of selections. -/
def unionRegions (img : ImageData) : List SelectionBox → Finset (ℕ × ℕ)
  | [] => ∅
  | s :: rest => regionSet img s ∪ unionRegions img rest

/-- The layer record a selection should produce given the set of
coordinates already claimed by higher layers. -/
def layerSpec (img : ImageData) (bg : Color) (t : ℚ) (s : SelectionBox)
    (claimed : Finset (ℕ × ℕ)) : LayerResult :=
  mkLayer s (regionSet img s \ claimed).card
    (if s.countFullArea then (regionSet img s \ claimed).card
     else ((regionSet img s \ claimed).filter (fun p => inkAt img bg t p = true)).card)

/-- The coordinates exclusively attributed to the `i`-th selection: inside
its clamped rectangle and inside no clamped rectangle of a later (higher
z-order) selection. -/
def topClaim (img : ImageData) (sels : List SelectionBox) (i : ℕ) : Finset (ℕ × ℕ) :=
  (regionSet img (sels.getD i default)).filter fun p =>
    ∀ j ∈ Finset.range sels.length, i < j → p ∉ regionSet img (sels.getD j default)

/-- The number of ink pixels of the whole raster, as the cardinality of the
filtered coordinate grid. -/
def gridInkCount (img : ImageData) (bg : Color) (t : ℚ) : ℕ :=
  ((Finset.range img.width ×ˢ Finset.range img.height).filter
    (fun p => inkAt img bg t p = true)).card

/-! ## Region grower (`src/utils/floodFill.ts`) -/

/-- Bounding box of a grown region, as in `floodFill.ts` (coordinates are
JS numbers; all values produced are integers). -/
structure BBox where
  minX : ℤ
  maxX : ℤ
  minY : ℤ
  maxY : ℤ
deriving DecidableEq, Repr

/-- The in-bounds coordinate grid of a raster, with `ℤ` coordinates (stack
entries of the flood fill may be negative before the bounds check). -/
def intGrid (img : ImageData) : Finset (ℤ × ℤ) :=
  Finset.Ico 0 (img.width : ℤ) ×ˢ Finset.Ico 0 (img.height : ℤ)

/-- The `while (stack.length > 0)` loop of `floodFill`: pop a point; skip it
when out of bounds, already visited, transparent, or beyond the tolerance
from the seed color `(tR, tG, tB)`; otherwise mark it visited, extend the
bounding box and push its four neighbours (in the source's push order, so
the head of the list is the last push). -/
def floodLoop (img : ImageData) (tR tG tB : ℕ) (tol : ℚ) :
    List (ℤ × ℤ) → Finset (ℤ × ℤ) → BBox → Finset (ℤ × ℤ) × BBox
  | [], visited, bb => (visited, bb)
  | (x, y) :: rest, visited, bb =>
    if h1 : x < 0 ∨ (img.width : ℤ) ≤ x ∨ y < 0 ∨ (img.height : ℤ) ≤ y then
      floodLoop img tR tG tB tol rest visited bb
    else if h2 : (x, y) ∈ visited then
      floodLoop img tR tG tB tol rest visited bb
    else if (img.pix x.toNat y.toNat).a < 13 then
      floodLoop img tR tG tB tol rest visited bb
    else if distExceeds
        (colorDistSq (img.pix x.toNat y.toNat).r (img.pix x.toNat y.toNat).g
          (img.pix x.toNat y.toNat).b tR tG tB) tol then
      floodLoop img tR tG tB tol rest visited bb
    else
      floodLoop img tR tG tB tol
        ((x, y - 1) :: (x, y + 1) :: (x - 1, y) :: (x + 1, y) :: rest)
        (insert (x, y) visited)
        ⟨min bb.minX x, max bb.maxX x, min bb.minY y, max bb.maxY y⟩
termination_by stack visited _ => 5 * (intGrid img \ visited).card + stack.length
decreasing_by
  · simp only [List.length_cons]
    omega
  · simp only [List.length_cons]
    omega
  · simp only [List.length_cons]
    omega
  · simp only [List.length_cons]
    omega
  · have hmem : (x, y) ∈ intGrid img \ visited := by
      rw [Finset.mem_sdiff]
      refine ⟨?_, h2⟩
      simp only [intGrid, Finset.mem_product, Finset.mem_Ico]
      push_neg at h1
      omega
    have hcard : (intGrid img \ insert (x, y) visited).card
        < (intGrid img \ visited).card := by
      rw [Finset.sdiff_insert]
      exact Finset.card_erase_lt_of_mem hmem
    simp only [List.length_cons]
    omega

/-- `floodFill` from `floodFill.ts`.  The source defaults `tolerance` to 30
and `minRegionSize` to 10; here both are explicit arguments.  Returns
`none` for an out-of-bounds seed, a (nearly) transparent seed, or a grown
region smaller than `minRegionSize`; otherwise the bounding box padded by 2
and clamped to the raster. -/
def floodFill (img : ImageData) (startX startY : ℤ) (tolerance : ℚ)
    (minRegionSize : ℕ) : Option BBox :=
  if startX < 0 ∨ (img.width : ℤ) ≤ startX ∨ startY < 0 ∨ (img.height : ℤ) ≤ startY then
    none
  else
    let sp := img.pix startX.toNat startY.toNat
    if sp.a < 13 then none
    else
      let res := floodLoop img sp.r sp.g sp.b tolerance [(startX, startY)] ∅
        ⟨startX, startX, startY, startY⟩
      if res.1.card < minRegionSize then none
      else
        some ⟨max 0 (res.2.minX - 2), min ((img.width : ℤ) - 1) (res.2.maxX + 2),
              max 0 (res.2.minY - 2), min ((img.height : ℤ) - 1) (res.2.maxY + 2)⟩

/-! ## Concrete rasters and regions used in witnesses and counterexamples -/

/-- A concrete 1×1 fully opaque black raster. -/
def blackPixelImage : ImageData := ⟨1, 1, fun _ _ => ⟨0, 0, 0, 255⟩⟩

/-- The default white background. -/
def whiteBg : Color := ⟨255, 255, 255⟩

/-- A concrete 2×2 fully opaque black raster. -/
def blackImage2 : ImageData := ⟨2, 2, fun _ _ => ⟨0, 0, 0, 255⟩⟩

/-- A selection dragged up-left: anchor (2,2) with width and height -2. -/
def negBox : SelectionBox :=
  { id := "r", x := 2, y := 2, width := -2, height := -2
    label := "L", color := "#000", isData := true, countFullArea := false }

/-- The normalized counterpart of `negBox`: top-left (0,0), extent 2×2. -/
def normBox : SelectionBox :=
  { id := "r", x := 0, y := 0, width := 2, height := 2
    label := "L", color := "#000", isData := true, countFullArea := false }

/-- A selection lying entirely to the right of `blackImage2`. -/
def farBox : SelectionBox :=
  { id := "f", x := 5, y := 0, width := 1, height := 1
    label := "F", color := "#fff", isData := false, countFullArea := false }

/-- A 1×1 region flagged `countFullArea`. -/
def fullAreaBox : SelectionBox :=
  { id := "a", x := 0, y := 0, width := 1, height := 1
    label := "A", color := "#111", isData := true, countFullArea := true }

/-! ## Counting and structural lemmas -/

lemma foldl_count_range (P : ℕ → Bool) (n : ℕ) : ∀ a : ℕ,
    (List.range n).foldl (fun acc x => if P x then acc + 1 else acc) a
      = a + ((Finset.range n).filter (fun x => P x = true)).card := by
  induction n with
  | zero => simp
  | succ n ih =>
    intro a
    rw [List.range_succ, List.foldl_append, ih]
    simp only [List.foldl_cons, List.foldl_nil]
    rw [Finset.range_succ, Finset.filter_insert]
    rcases hP : P n with _ | _
    · simp [hP]
    · have hn : n ∉ (Finset.range n).filter (fun x => P x = true) := by simp
      simp [Finset.card_insert_of_not_mem hn]
      omega

lemma nested_count (w : ℕ) (g : ℕ → ℕ → Bool) (hh : ℕ) : ∀ a : ℕ,
    (List.range hh).foldl
      (fun acc y =>
        (List.range w).foldl (fun acc2 x => if g x y then acc2 + 1 else acc2) acc) a
      = a + ∑ y ∈ Finset.range hh,
          ((Finset.range w).filter (fun x => g x y = true)).card := by
  induction hh with
  | zero => simp
  | succ n ih =>
    intro a
    rw [List.range_succ, List.foldl_append, ih]
    simp only [List.foldl_cons, List.foldl_nil]
    rw [foldl_count_range, Finset.sum_range_succ]
    omega

lemma totalInkCount_eq_sum (img : ImageData) (bg : Color) (t : ℚ) :
    totalInkCount img bg t
      = ∑ y ∈ Finset.range img.height,
          ((Finset.range img.width).filter (fun x => inkAt img bg t (x, y) = true)).card := by
  unfold totalInkCount
  rw [nested_count]
  omega

lemma gridInkCount_eq_sum (img : ImageData) (bg : Color) (t : ℚ) :
    gridInkCount img bg t
      = ∑ y ∈ Finset.range img.height,
          ((Finset.range img.width).filter (fun x => inkAt img bg t (x, y) = true)).card := by
  unfold gridInkCount
  rw [Finset.card_filter, Finset.sum_product, Finset.sum_comm]
  exact Finset.sum_congr rfl fun y _ => (Finset.card_filter _ _).symm

lemma analyzeImage_totalInkPixels (img : ImageData) (sels : List SelectionBox)
    (bg : Color) (t : ℚ) :
    (analyzeImage img sels bg t).totalInkPixels = totalInkCount img bg t := rfl

lemma analyzeImage_totalImagePixels (img : ImageData) (sels : List SelectionBox)
    (bg : Color) (t : ℚ) :
    (analyzeImage img sels bg t).totalImagePixels = img.width * img.height := rfl

lemma analyzeImage_layers (img : ImageData) (sels : List SelectionBox)
    (bg : Color) (t : ℚ) :
    (analyzeImage img sels bg t).layers = (buildLayers img bg t sels ∅).2 := rfl

lemma analyzeImage_densityRatio (img : ImageData) (sels : List SelectionBox)
    (bg : Color) (t : ℚ) :
    (analyzeImage img sels bg t).densityRatio =
      if 0 < (analyzeImage img sels bg t).totalImagePixels
      then ((analyzeImage img sels bg t).totalDataPixels : ℚ) /
        ((analyzeImage img sels bg t).totalImagePixels : ℚ)
      else 0 := rfl

lemma analyzeImage_efficiencyRatio (img : ImageData) (sels : List SelectionBox)
    (bg : Color) (t : ℚ) :
    (analyzeImage img sels bg t).efficiencyRatio =
      if 0 < (analyzeImage img sels bg t).totalInkPixels
      then ((analyzeImage img sels bg t).totalDataPixels : ℚ) /
        ((analyzeImage img sels bg t).totalInkPixels : ℚ)
      else 0 := rfl

lemma card_insert_eq_card_erase_succ {α : Type} [DecidableEq α]
    (X : Finset α) (p : α) : (insert p X).card = (X.erase p).card + 1 := by
  by_cases hp : p ∈ X
  · rw [Finset.insert_eq_self.mpr hp, Finset.card_erase_of_mem hp]
    have : 0 < X.card := Finset.card_pos.mpr ⟨p, hp⟩
    omega
  · rw [Finset.card_insert_of_not_mem hp, Finset.erase_eq_of_not_mem hp]

lemma claimFold_eq (img : ImageData) (bg : Color) (t : ℚ) (cfa : Bool)
    (L : List (ℕ × ℕ)) : ∀ (proc : Finset (ℕ × ℕ)) (a b : ℕ),
    L.foldl (claimPixel img bg t cfa) (proc, a, b)
      = (proc ∪ L.toFinset,
         a + (L.toFinset \ proc).card,
         b + (if cfa then (L.toFinset \ proc).card
              else ((L.toFinset \ proc).filter (fun p => inkAt img bg t p = true)).card)) := by
  induction L with
  | nil => intro proc a b; simp
  | cons p L ih =>
    intro proc a b
    rw [List.foldl_cons]
    by_cases hp : p ∈ proc
    · rw [show claimPixel img bg t cfa (proc, a, b) p = (proc, a, b) from if_pos hp, ih]
      rw [List.toFinset_cons, Finset.union_insert,
        Finset.insert_eq_self.mpr (Finset.mem_union_left _ hp),
        Finset.insert_sdiff_of_mem _ hp]
    · rw [show claimPixel img bg t cfa (proc, a, b) p
          = (insert p proc, a + 1,
             b + if cfa then 1 else if inkAt img bg t p then 1 else 0) from if_neg hp, ih]
      rw [List.toFinset_cons, Finset.union_insert, Finset.insert_union,
        Finset.sdiff_insert, Finset.insert_sdiff_of_not_mem _ hp]
      simp only [Prod.mk.injEq]
      refine ⟨trivial, ?_, ?_⟩
      · rw [card_insert_eq_card_erase_succ]
        omega
      · by_cases hc : cfa = true
        · simp only [if_pos hc, card_insert_eq_card_erase_succ]
          omega
        · simp only [if_neg hc]
          rw [Finset.filter_erase, Finset.filter_insert]
          by_cases hink : inkAt img bg t p = true
          · simp only [if_pos hink, card_insert_eq_card_erase_succ]
            omega
          · simp only [if_neg hink]
            rw [Finset.erase_eq_of_not_mem]
            · omega
            · intro hmem
              exact hink (Finset.mem_filter.mp hmem).2

lemma claimRegion_eq (img : ImageData) (bg : Color) (t : ℚ) (s : SelectionBox)
    (proc : Finset (ℕ × ℕ)) :
    claimRegion img bg t s proc
      = (proc ∪ regionSet img s,
         (regionSet img s \ proc).card,
         if s.countFullArea then (regionSet img s \ proc).card
         else ((regionSet img s \ proc).filter (fun q => inkAt img bg t q = true)).card) := by
  unfold claimRegion regionSet
  rw [claimFold_eq]
  simp

lemma buildLayers_cons (img : ImageData) (bg : Color) (t : ℚ) (s : SelectionBox)
    (rest : List SelectionBox) (proc : Finset (ℕ × ℕ)) :
    buildLayers img bg t (s :: rest) proc
      = ((claimRegion img bg t s (buildLayers img bg t rest proc).1).1,
         mkLayer s (claimRegion img bg t s (buildLayers img bg t rest proc).1).2.1
           (claimRegion img bg t s (buildLayers img bg t rest proc).1).2.2
           :: (buildLayers img bg t rest proc).2) := rfl

lemma buildLayers_fst (img : ImageData) (bg : Color) (t : ℚ) :
    ∀ (sels : List SelectionBox) (proc : Finset (ℕ × ℕ)),
    (buildLayers img bg t sels proc).1 = proc ∪ unionRegions img sels := by
  intro sels
  induction sels with
  | nil => intro proc; simp [buildLayers, unionRegions]
  | cons s rest ih =>
    intro proc
    rw [buildLayers_cons]
    show (claimRegion img bg t s (buildLayers img bg t rest proc).1).1 = _
    rw [ih, claimRegion_eq]
    show (proc ∪ unionRegions img rest) ∪ regionSet img s
      = proc ∪ unionRegions img (s :: rest)
    show _ = proc ∪ (regionSet img s ∪ unionRegions img rest)
    rw [Finset.union_assoc,
      Finset.union_comm (unionRegions img rest) (regionSet img s)]

lemma buildLayers_length (img : ImageData) (bg : Color) (t : ℚ) :
    ∀ (sels : List SelectionBox) (proc : Finset (ℕ × ℕ)),
    (buildLayers img bg t sels proc).2.length = sels.length := by
  intro sels
  induction sels with
  | nil => intro proc; rfl
  | cons s rest ih =>
    intro proc
    rw [buildLayers_cons]
    show (mkLayer s _ _ :: (buildLayers img bg t rest proc).2).length = rest.length + 1
    rw [List.length_cons, ih]

lemma buildLayers_getD (img : ImageData) (bg : Color) (t : ℚ) :
    ∀ (sels : List SelectionBox) (proc : Finset (ℕ × ℕ)) (i : ℕ), i < sels.length →
    (buildLayers img bg t sels proc).2.getD i default
      = layerSpec img bg t (sels.getD i default)
          (proc ∪ unionRegions img (sels.drop (i + 1))) := by
  intro sels
  induction sels with
  | nil => intro proc i h; simp at h
  | cons s rest ih =>
    intro proc i h
    rw [buildLayers_cons]
    cases i with
    | zero =>
      rw [List.getD_cons_zero, buildLayers_fst, claimRegion_eq]
      rfl
    | succ i =>
      rw [List.getD_cons_succ, ih proc i (by simpa using h)]
      rfl

lemma mem_regionPixels (img : ImageData) (s : SelectionBox) (p : ℕ × ℕ) :
    p ∈ regionPixels img s ↔
      ((boundX1 s).toNat ≤ p.1 ∧ p.1 < (boundX2 img s).toNat ∧
       (boundY1 s).toNat ≤ p.2 ∧ p.2 < (boundY2 img s).toNat) := by
  obtain ⟨px, py⟩ := p
  unfold regionPixels regionRows regionCols
  simp only [List.mem_flatMap, List.mem_map, List.mem_range'_1, Prod.mk.injEq]
  constructor
  · rintro ⟨py', ⟨hy1, hy2⟩, px', ⟨hx1, hx2⟩, hpx, hpy⟩
    subst hpx; subst hpy
    refine ⟨hx1, ?_, hy1, ?_⟩ <;> omega
  · rintro ⟨hx1, hx2, hy1, hy2⟩
    exact ⟨py, ⟨hy1, by omega⟩, px, ⟨hx1, by omega⟩, rfl, rfl⟩

lemma mem_regionSet (img : ImageData) (s : SelectionBox) (p : ℕ × ℕ) :
    p ∈ regionSet img s ↔ p ∈ regionPixels img s := by
  unfold regionSet
  exact List.mem_toFinset

lemma mem_unionRegions (img : ImageData) :
    ∀ (l : List SelectionBox) (p : ℕ × ℕ),
    p ∈ unionRegions img l ↔ ∃ s ∈ l, p ∈ regionSet img s := by
  intro l
  induction l with
  | nil => intro p; simp [unionRegions]
  | cons s rest ih =>
    intro p
    simp only [unionRegions, Finset.mem_union, ih, List.mem_cons]
    constructor
    · rintro (hp | ⟨s2, hs2, hp⟩)
      · exact ⟨s, Or.inl rfl, hp⟩
      · exact ⟨s2, Or.inr hs2, hp⟩
    · rintro ⟨s2, hs2 | hs2, hp⟩
      · subst hs2; exact Or.inl hp
      · exact Or.inr ⟨s2, hs2, hp⟩

lemma mem_unionRegions_drop (img : ImageData) (sels : List SelectionBox)
    (i : ℕ) (p : ℕ × ℕ) :
    p ∈ unionRegions img (sels.drop (i + 1)) ↔
      ∃ j, i < j ∧ j < sels.length ∧ p ∈ regionSet img (sels.getD j default) := by
  rw [mem_unionRegions]
  constructor
  · rintro ⟨s, hs, hps⟩
    rw [List.mem_iff_getElem] at hs
    obtain ⟨k, hk, hks⟩ := hs
    have hlen : (sels.drop (i + 1)).length = sels.length - (i + 1) :=
      sels.length_drop (i + 1)
    have hjl : i + 1 + k < sels.length := by omega
    refine ⟨i + 1 + k, by omega, hjl, ?_⟩
    rw [List.getD_eq_getElem sels default hjl]
    rw [List.getElem_drop] at hks
    rwa [← hks] at hps
  · rintro ⟨j, hij, hjl, hpj⟩
    refine ⟨sels.getD j default, ?_, hpj⟩
    rw [List.getD_eq_getElem sels default hjl, List.mem_iff_getElem]
    have hk : j - (i + 1) < (sels.drop (i + 1)).length := by
      have := sels.length_drop (i + 1); omega
    refine ⟨j - (i + 1), hk, ?_⟩
    rw [List.getElem_drop]
    congr 1
    omega

lemma topClaim_eq_sdiff (img : ImageData) (sels : List SelectionBox) (i : ℕ) :
    topClaim img sels i
      = regionSet img (sels.getD i default) \ unionRegions img (sels.drop (i + 1)) := by
  ext p
  simp only [topClaim, Finset.mem_filter, Finset.mem_sdiff, Finset.mem_range,
    mem_unionRegions_drop]
  constructor
  · rintro ⟨hp, hall⟩
    refine ⟨hp, ?_⟩
    rintro ⟨j, hij, hjl, hpj⟩
    exact hall j hjl hij hpj
  · rintro ⟨hp, hnone⟩
    exact ⟨hp, fun j hjl hij hpj => hnone ⟨j, hij, hjl, hpj⟩⟩

lemma layerSpec_totalPixels (img : ImageData) (bg : Color) (t : ℚ)
    (s : SelectionBox) (claimed : Finset (ℕ × ℕ)) :
    (layerSpec img bg t s claimed).totalPixels = (regionSet img s \ claimed).card := rfl

lemma layerSpec_inkPixels (img : ImageData) (bg : Color) (t : ℚ)
    (s : SelectionBox) (claimed : Finset (ℕ × ℕ)) :
    (layerSpec img bg t s claimed).inkPixels
      = (if s.countFullArea then (regionSet img s \ claimed).card
         else ((regionSet img s \ claimed).filter
             (fun q => inkAt img bg t q = true)).card) := rfl

lemma analyzeImage_totalDataPixels (img : ImageData) (sels : List SelectionBox)
    (bg : Color) (t : ℚ) :
    (analyzeImage img sels bg t).totalDataPixels
      = (buildLayers img bg t sels ∅).2.foldl
          (fun acc l => if l.isData then acc + l.inkPixels else acc) 0 := rfl

lemma analyzeImage_totalNonDataPixels (img : ImageData) (sels : List SelectionBox)
    (bg : Color) (t : ℚ) :
    (analyzeImage img sels bg t).totalNonDataPixels
      = (buildLayers img bg t sels ∅).2.foldl
          (fun acc l => if l.isData then acc else acc + l.inkPixels) 0 := rfl

lemma foldl_data_nondata (layers : List LayerResult) : ∀ a b : ℕ,
    layers.foldl (fun acc l => if l.isData then acc + l.inkPixels else acc) a
      + layers.foldl (fun acc l => if l.isData then acc else acc + l.inkPixels) b
      = a + b + (layers.map LayerResult.inkPixels).sum := by
  induction layers with
  | nil => intro a b; simp
  | cons l rest ih =>
    intro a b
    simp only [List.foldl_cons, List.map_cons, List.sum_cons]
    by_cases hd : l.isData = true
    · rw [if_pos hd, if_pos hd, ih]
      omega
    · rw [if_neg hd, if_neg hd, ih]
      omega

lemma regionSet_empty_of_outside (img : ImageData) (s : SelectionBox)
    (h : (img.width : ℚ) ≤ s.x ∨ s.x + s.width ≤ 0 ∨
         (img.height : ℚ) ≤ s.y ∨ s.y + s.height ≤ 0) :
    regionSet img s = ∅ := by
  rw [Finset.eq_empty_iff_forall_not_mem]
  intro p hp
  rw [mem_regionSet, mem_regionPixels] at hp
  obtain ⟨hx1, hx2, hy1, hy2⟩ := hp
  rcases h with h | h | h | h
  · have hfloor : (img.width : ℤ) ≤ ⌊s.x⌋ := Int.le_floor.mpr (by exact_mod_cast h)
    have hb1 : (img.width : ℤ) ≤ boundX1 s :=
      le_trans hfloor (le_max_right 0 ⌊s.x⌋)
    have h1 : img.width ≤ (boundX1 s).toNat := by
      have := Int.toNat_le_toNat hb1
      simpa using this
    have h0 : boundX2 img s ≤ (img.width : ℤ) :=
      min_le_left (img.width : ℤ) ⌈s.x + s.width⌉
    omega
  · have hceil : ⌈s.x + s.width⌉ ≤ 0 := Int.ceil_le.mpr (by exact_mod_cast h)
    have h2 : (boundX2 img s).toNat = 0 :=
      Int.toNat_of_nonpos (le_trans (min_le_right _ _) hceil)
    omega
  · have hfloor : (img.height : ℤ) ≤ ⌊s.y⌋ := Int.le_floor.mpr (by exact_mod_cast h)
    have hb1 : (img.height : ℤ) ≤ boundY1 s :=
      le_trans hfloor (le_max_right 0 ⌊s.y⌋)
    have h1 : img.height ≤ (boundY1 s).toNat := by
      have := Int.toNat_le_toNat hb1
      simpa using this
    have h0 : boundY2 img s ≤ (img.height : ℤ) :=
      min_le_left (img.height : ℤ) ⌈s.y + s.height⌉
    omega
  · have hceil : ⌈s.y + s.height⌉ ≤ 0 := Int.ceil_le.mpr (by exact_mod_cast h)
    have h2 : (boundY2 img s).toNat = 0 :=
      Int.toNat_of_nonpos (le_trans (min_le_right _ _) hceil)
    omega

lemma regionSet_empty_of_nonpos_extent (img : ImageData) (s : SelectionBox)
    (h : (s.width ≤ 0 ∧ s.x = (⌊s.x⌋ : ℚ)) ∨ (s.height ≤ 0 ∧ s.y = (⌊s.y⌋ : ℚ))) :
    regionSet img s = ∅ := by
  rw [Finset.eq_empty_iff_forall_not_mem]
  intro p hp
  rw [mem_regionSet, mem_regionPixels] at hp
  obtain ⟨hx1, hx2, hy1, hy2⟩ := hp
  rcases h with ⟨hw, hx⟩ | ⟨hh, hy⟩
  · have hceq : ⌈s.x⌉ = ⌊s.x⌋ := by
      rw [hx]
      simp
    have hceil : ⌈s.x + s.width⌉ ≤ ⌊s.x⌋ := by
      rw [← hceq]
      exact Int.ceil_le_ceil (by linarith)
    have hb : boundX2 img s ≤ boundX1 s :=
      le_trans (min_le_right (img.width : ℤ) ⌈s.x + s.width⌉)
        (le_trans hceil (le_max_right 0 ⌊s.x⌋))
    have := Int.toNat_le_toNat hb
    omega
  · have hceq : ⌈s.y⌉ = ⌊s.y⌋ := by
      rw [hy]
      simp
    have hceil : ⌈s.y + s.height⌉ ≤ ⌊s.y⌋ := by
      rw [← hceq]
      exact Int.ceil_le_ceil (by linarith)
    have hb : boundY2 img s ≤ boundY1 s :=
      le_trans (min_le_right (img.height : ℤ) ⌈s.y + s.height⌉)
        (le_trans hceil (le_max_right 0 ⌊s.y⌋))
    have := Int.toNat_le_toNat hb
    omega

/-! ## Claim theorems -/

/-- C5: the grade returned by the comparison engine is a function of
`relativeDifference` alone; the four grades partition the comparison axis at
-10, -25 and -40; any positive relative difference grades "excellent"; and
user efficiency 0.40 against reference efficiency 0.80 yields
`relativeDifference = -50` and grade "poor". -/
theorem grade_thresholds :
    (∀ u r : AnalysisResult,
      compareGrade u r = gradeOf (calculateMetrics u r).relativeDifference) ∧
    (∀ rd : JsNum,
      (gradeOf rd = "excellent" ↔ rd.ge (-10) = true) ∧
      (gradeOf rd = "good" ↔ (rd.ge (-25) = true ∧ rd.ge (-10) = false)) ∧
      (gradeOf rd = "fair" ↔ (rd.ge (-40) = true ∧ rd.ge (-25) = false)) ∧
      (gradeOf rd = "poor" ↔ rd.ge (-40) = false)) ∧
    (∀ q : ℚ, 0 < q → gradeOf (JsNum.fin q) = "excellent") ∧
    ((calculateMetrics (resultWithEff (2/5)) (resultWithEff (4/5))).relativeDifference
        = JsNum.fin (-50) ∧
      compareGrade (resultWithEff (2/5)) (resultWithEff (4/5)) = "poor") := by
  have hm : (calculateMetrics (resultWithEff (2/5)) (resultWithEff (4/5))).relativeDifference
      = JsNum.fin (-50) := by
    simp only [calculateMetrics, resultWithEff]
    norm_num
  refine ⟨fun u r => rfl, fun rd => ?_, fun q hq => ?_, hm, ?_⟩
  · have h1 : rd.ge (-10) = true → rd.ge (-25) = true := by
      cases rd with
      | fin q =>
          simp only [JsNum.ge, decide_eq_true_eq]
          intro h; linarith
      | posInf => intro _; rfl
    have h2 : rd.ge (-25) = true → rd.ge (-40) = true := by
      cases rd with
      | fin q =>
          simp only [JsNum.ge, decide_eq_true_eq]
          intro h; linarith
      | posInf => intro _; rfl
    unfold gradeOf
    rcases hge10 : rd.ge (-10) with _ | _ <;>
      rcases hge25 : rd.ge (-25) with _ | _ <;>
        rcases hge40 : rd.ge (-40) with _ | _ <;>
          simp_all
  · unfold gradeOf
    have : JsNum.ge (JsNum.fin q) (-10) = true := by
      simp only [JsNum.ge, decide_eq_true_eq]; linarith
    simp [this]
  · unfold compareGrade
    rw [hm]
    unfold gradeOf
    norm_num [JsNum.ge]

/-- Witness for `grade_thresholds`: the positive-difference clause at the
concrete value `1`. -/
theorem grade_thresholds_witness : gradeOf (JsNum.fin 1) = "excellent" :=
  grade_thresholds.2.2.1 1 (by norm_num)

/-- C6: `relativeDifference` is positive infinity when the reference
efficiency is 0 and the user efficiency is positive, zero when the
reference efficiency is 0 otherwise, and the relative percentage formula
otherwise; the zero-reference case is explicit infinity, not an error and
not a clamped 0. -/
theorem relativeDifference_spec :
    ∀ u r : AnalysisResult,
      ((calculateMetrics u r).relativeDifference =
        if r.efficiencyRatio = 0 then
          (if 0 < u.efficiencyRatio then JsNum.posInf else JsNum.fin 0)
        else JsNum.fin
          ((u.efficiencyRatio - r.efficiencyRatio) / r.efficiencyRatio * 100)) ∧
      (r.efficiencyRatio = 0 → 0 < u.efficiencyRatio →
        (calculateMetrics u r).relativeDifference = JsNum.posInf) ∧
      JsNum.posInf ≠ JsNum.fin 0 := by
  intro u r
  refine ⟨rfl, fun h0 hpos => ?_, by decide⟩
  simp [calculateMetrics, h0, hpos]

/-- Witness for `relativeDifference_spec`: reference efficiency 0 against
user efficiency 0.3 yields explicit positive infinity. -/
theorem relativeDifference_spec_witness :
    (calculateMetrics (resultWithEff (3/10)) (resultWithEff 0)).relativeDifference
      = JsNum.posInf :=
  (relativeDifference_spec (resultWithEff (3/10)) (resultWithEff 0)).2.1 rfl
    (by norm_num [resultWithEff])

/-- C2: the `totalInkPixels` field of `analyzeImage` does not depend on the
region list at all, it equals the number of ink pixels of the whole raster
(the cardinality of the filtered coordinate grid), and it is not in general
the sum of the per-layer exclusive ink counts. -/
theorem totalInk_region_independent :
    (∀ (img : ImageData) (bg : Color) (t : ℚ) (sels sels2 : List SelectionBox),
      (analyzeImage img sels bg t).totalInkPixels
        = (analyzeImage img sels2 bg t).totalInkPixels) ∧
    (∀ (img : ImageData) (bg : Color) (t : ℚ) (sels : List SelectionBox),
      (analyzeImage img sels bg t).totalInkPixels = gridInkCount img bg t) ∧
    (∃ (img : ImageData) (bg : Color) (t : ℚ) (sels : List SelectionBox),
      (analyzeImage img sels bg t).totalInkPixels
        ≠ ((analyzeImage img sels bg t).layers.map LayerResult.inkPixels).sum) := by
  refine ⟨fun img bg t sels sels2 => rfl, fun img bg t sels => ?_,
    ⟨blackPixelImage, whiteBg, 30, [], by decide⟩⟩
  rw [analyzeImage_totalInkPixels, totalInkCount_eq_sum, gridInkCount_eq_sum]

/-- C4: `densityRatio` is `totalDataPixels / totalImagePixels` with an
explicit 0 when the image has no pixels, and `efficiencyRatio` is
`totalDataPixels / totalInkPixels` with an explicit 0 when the raster has
no ink. -/
theorem ratios_guarded (img : ImageData) (sels : List SelectionBox)
    (bg : Color) (t : ℚ) :
    (analyzeImage img sels bg t).densityRatio =
      (if (analyzeImage img sels bg t).totalImagePixels = 0 then 0
       else ((analyzeImage img sels bg t).totalDataPixels : ℚ) /
         ((analyzeImage img sels bg t).totalImagePixels : ℚ)) ∧
    (analyzeImage img sels bg t).efficiencyRatio =
      (if (analyzeImage img sels bg t).totalInkPixels = 0 then 0
       else ((analyzeImage img sels bg t).totalDataPixels : ℚ) /
         ((analyzeImage img sels bg t).totalInkPixels : ℚ)) := by
  constructor
  · rw [analyzeImage_densityRatio]
    rcases Nat.eq_zero_or_pos (analyzeImage img sels bg t).totalImagePixels with h | h
    · rw [if_neg (by omega), if_pos h]
    · rw [if_pos h, if_neg (by omega)]
  · rw [analyzeImage_efficiencyRatio]
    rcases Nat.eq_zero_or_pos (analyzeImage img sels bg t).totalInkPixels with h | h
    · rw [if_neg (by omega), if_pos h]
    · rw [if_pos h, if_neg (by omega)]

/-- C1: each pixel of the union of the clamped rectangles is attributed to
the exclusive counts of at most one region — the one with the highest input
index containing it: the `i`-th layer's exclusive pixel count is exactly the
number of coordinates inside its clamped rectangle and inside no
later-listed rectangle, the exclusive ink count is that set counted through
the ink test (or whole under `countFullArea`), and the exclusive sets of
distinct regions are disjoint. -/
theorem topmost_exclusive_attribution (img : ImageData) (sels : List SelectionBox)
    (bg : Color) (t : ℚ) (i : ℕ) (h : i < sels.length) :
    ((analyzeImage img sels bg t).layers.getD i default).totalPixels
        = (topClaim img sels i).card ∧
    ((analyzeImage img sels bg t).layers.getD i default).inkPixels
        = (if (sels.getD i default).countFullArea then (topClaim img sels i).card
           else ((topClaim img sels i).filter (fun q => inkAt img bg t q = true)).card) ∧
    (∀ j, j < sels.length → i < j →
      Disjoint (topClaim img sels i) (topClaim img sels j)) := by
  refine ⟨?_, ?_, ?_⟩
  · rw [analyzeImage_layers, buildLayers_getD img bg t sels ∅ i h,
      layerSpec_totalPixels, Finset.empty_union, ← topClaim_eq_sdiff]
  · rw [analyzeImage_layers, buildLayers_getD img bg t sels ∅ i h,
      layerSpec_inkPixels, Finset.empty_union, ← topClaim_eq_sdiff]
  · intro j hjl hij
    rw [Finset.disjoint_left]
    intro p hpi hpj
    simp only [topClaim, Finset.mem_filter, Finset.mem_range] at hpi hpj
    exact hpi.2 j hjl hij hpj.1

/-- Witness for `topmost_exclusive_attribution` at a concrete raster and a
single whole-image region. -/
theorem topmost_exclusive_attribution_witness :
    ((analyzeImage blackImage2 [normBox] whiteBg 30).layers.getD 0 default).totalPixels
      = (topClaim blackImage2 [normBox] 0).card :=
  (topmost_exclusive_attribution blackImage2 [normBox] whiteBg 30 0 (by decide)).1

/-- C8: `analyzeImage` returns one `LayerResult` per input selection, in the
caller's input order: the `i`-th layer carries the `i`-th selection's id,
label, color, classification and full-area flag. -/
theorem layers_match_input_order (img : ImageData) (sels : List SelectionBox)
    (bg : Color) (t : ℚ) :
    (analyzeImage img sels bg t).layers.length = sels.length ∧
    ∀ i, i < sels.length →
      (((analyzeImage img sels bg t).layers.getD i default).id
          = (sels.getD i default).id ∧
       ((analyzeImage img sels bg t).layers.getD i default).label
          = (sels.getD i default).label ∧
       ((analyzeImage img sels bg t).layers.getD i default).color
          = (sels.getD i default).color ∧
       ((analyzeImage img sels bg t).layers.getD i default).isData
          = (sels.getD i default).isData ∧
       ((analyzeImage img sels bg t).layers.getD i default).countFullArea
          = (sels.getD i default).countFullArea) := by
  refine ⟨?_, fun i h => ?_⟩
  · rw [analyzeImage_layers, buildLayers_length]
  · rw [analyzeImage_layers, buildLayers_getD img bg t sels ∅ i h]
    exact ⟨rfl, rfl, rfl, rfl, rfl⟩

/-- Witness for `layers_match_input_order` at a concrete input. -/
theorem layers_match_input_order_witness :
    ((analyzeImage blackImage2 [negBox] whiteBg 30).layers.getD 0 default).id
      = (([negBox] : List SelectionBox).getD 0 default).id :=
  ((layers_match_input_order blackImage2 [negBox] whiteBg 30).2 0 (by decide)).1

/-- C10: every layer's exclusive ink count is bounded by its exclusive
pixel count (and equals it under `countFullArea`), and the data/non-data
totals sum to the total of all layers' ink counts. -/
theorem layer_count_invariants (img : ImageData) (sels : List SelectionBox)
    (bg : Color) (t : ℚ) :
    (∀ i : ℕ, ((analyzeImage img sels bg t).layers.getD i default).inkPixels
        ≤ ((analyzeImage img sels bg t).layers.getD i default).totalPixels) ∧
    (∀ i, i < sels.length → (sels.getD i default).countFullArea = true →
      ((analyzeImage img sels bg t).layers.getD i default).inkPixels
        = ((analyzeImage img sels bg t).layers.getD i default).totalPixels) ∧
    (analyzeImage img sels bg t).totalDataPixels
        + (analyzeImage img sels bg t).totalNonDataPixels
      = ((analyzeImage img sels bg t).layers.map LayerResult.inkPixels).sum := by
  refine ⟨fun i => ?_, fun i h hc => ?_, ?_⟩
  · by_cases h : i < sels.length
    · rw [analyzeImage_layers, buildLayers_getD img bg t sels ∅ i h,
        layerSpec_inkPixels, layerSpec_totalPixels]
      by_cases hc : (sels.getD i default).countFullArea = true
      · rw [if_pos hc]
      · rw [if_neg hc]
        exact Finset.card_filter_le _ _
    · have hlen : (analyzeImage img sels bg t).layers.length ≤ i := by
        rw [analyzeImage_layers, buildLayers_length]
        omega
      rw [List.getD_eq_default _ _ hlen]
      exact le_refl _
  · rw [analyzeImage_layers, buildLayers_getD img bg t sels ∅ i h,
      layerSpec_inkPixels, layerSpec_totalPixels, if_pos hc]
  · rw [analyzeImage_totalDataPixels, analyzeImage_totalNonDataPixels,
      analyzeImage_layers]
    have := foldl_data_nondata (buildLayers img bg t sels ∅).2 0 0
    simpa using this

/-- Witness for `layer_count_invariants`: the `countFullArea` equality at a
concrete region. -/
theorem layer_count_invariants_witness :
    ((analyzeImage blackImage2 [fullAreaBox] whiteBg 30).layers.getD 0 default).inkPixels
      = ((analyzeImage blackImage2 [fullAreaBox] whiteBg 30).layers.getD 0 default).totalPixels :=
  (layer_count_invariants blackImage2 [fullAreaBox] whiteBg 30).2.1 0 (by decide) (by decide)

/-- C9: a region whose rectangle lies entirely outside the raster
contributes nothing: `analyzeImage` still returns (it is a total function)
and that region's layer has exclusive pixel count 0 and exclusive ink
count 0. -/
theorem outside_region_contributes_zero (img : ImageData)
    (sels : List SelectionBox) (bg : Color) (t : ℚ) (i : ℕ)
    (h : i < sels.length)
    (hout : (img.width : ℚ) ≤ (sels.getD i default).x ∨
            (sels.getD i default).x + (sels.getD i default).width ≤ 0 ∨
            (img.height : ℚ) ≤ (sels.getD i default).y ∨
            (sels.getD i default).y + (sels.getD i default).height ≤ 0) :
    ((analyzeImage img sels bg t).layers.getD i default).totalPixels = 0 ∧
    ((analyzeImage img sels bg t).layers.getD i default).inkPixels = 0 := by
  have hempty := regionSet_empty_of_outside img (sels.getD i default) hout
  constructor
  · rw [analyzeImage_layers, buildLayers_getD img bg t sels ∅ i h,
      layerSpec_totalPixels, hempty]
    simp
  · rw [analyzeImage_layers, buildLayers_getD img bg t sels ∅ i h,
      layerSpec_inkPixels, hempty]
    simp

/-- Witness for `outside_region_contributes_zero`: a region at x = 5 on a
2×2 raster. -/
theorem outside_region_contributes_zero_witness :
    ((analyzeImage blackImage2 [farBox] whiteBg 30).layers.getD 0 default).totalPixels = 0 ∧
    ((analyzeImage blackImage2 [farBox] whiteBg 30).layers.getD 0 default).inkPixels = 0 :=
  outside_region_contributes_zero blackImage2 [farBox] whiteBg 30 0 (by decide)
    (Or.inl (by norm_num [blackImage2, farBox]))

/-- C3 (amended): `analyzeImage` does not normalize negative extents — it
only clamps `⌊x⌋ .. ⌈x+w⌉` to the raster.  A region whose width (resp.
height) is non-positive and whose `x` (resp. `y`) is integer-valued
therefore claims no pixels at all, unlike its normalized counterpart. -/
theorem negative_extent_region_claims_nothing (img : ImageData)
    (sels : List SelectionBox) (bg : Color) (t : ℚ) (i : ℕ)
    (h : i < sels.length)
    (hneg : ((sels.getD i default).width ≤ 0 ∧
              (sels.getD i default).x = (⌊(sels.getD i default).x⌋ : ℚ)) ∨
            ((sels.getD i default).height ≤ 0 ∧
              (sels.getD i default).y = (⌊(sels.getD i default).y⌋ : ℚ))) :
    ((analyzeImage img sels bg t).layers.getD i default).totalPixels = 0 ∧
    ((analyzeImage img sels bg t).layers.getD i default).inkPixels = 0 := by
  have hempty := regionSet_empty_of_nonpos_extent img (sels.getD i default) hneg
  constructor
  · rw [analyzeImage_layers, buildLayers_getD img bg t sels ∅ i h,
      layerSpec_totalPixels, hempty]
    simp
  · rw [analyzeImage_layers, buildLayers_getD img bg t sels ∅ i h,
      layerSpec_inkPixels, hempty]
    simp

/-- Witness for `negative_extent_region_claims_nothing` at the concrete
dragged-up-left region `negBox`. -/
theorem negative_extent_region_claims_nothing_witness :
    ((analyzeImage blackImage2 [negBox] whiteBg 30).layers.getD 0 default).totalPixels = 0 ∧
    ((analyzeImage blackImage2 [negBox] whiteBg 30).layers.getD 0 default).inkPixels = 0 :=
  negative_extent_region_claims_nothing blackImage2 [negBox] whiteBg 30 0 (by decide)
    (Or.inl (by norm_num [negBox]))

/-- Counterexample to C3 as stated: the dragged region `negBox`
(anchor (2,2), extents -2×-2) claims 0 pixels, while its normalized
counterpart `normBox` (top-left (0,0), extents 2×2) claims all 4 pixels of
the 2×2 raster — `analyzeImage` does not resolve negative extents to a
canonical top-left rectangle. -/
theorem negative_region_not_normalized_cex :
    ((analyzeImage blackImage2 [negBox] whiteBg 30).layers.getD 0 default).totalPixels = 0 ∧
    ((analyzeImage blackImage2 [normBox] whiteBg 30).layers.getD 0 default).totalPixels = 4 := by
  constructor
  · rw [analyzeImage_layers, buildLayers_getD blackImage2 whiteBg 30 [negBox] ∅ 0 (by decide),
      layerSpec_totalPixels, List.getD_cons_zero,
      regionSet_empty_of_nonpos_extent blackImage2 negBox (Or.inl (by norm_num [negBox]))]
    simp
  · rw [analyzeImage_layers, buildLayers_getD blackImage2 whiteBg 30 [normBox] ∅ 0 (by decide),
      layerSpec_totalPixels, List.getD_cons_zero]
    have hx1 : boundX1 normBox = 0 := by
      unfold boundX1
      norm_num [normBox]
    have hy1 : boundY1 normBox = 0 := by
      unfold boundY1
      norm_num [normBox]
    have hx2 : boundX2 blackImage2 normBox = 2 := by
      unfold boundX2
      norm_num [normBox, blackImage2]
    have hy2 : boundY2 blackImage2 normBox = 2 := by
      unfold boundY2
      norm_num [normBox, blackImage2]
    have hpix : regionPixels blackImage2 normBox = [(0, 0), (1, 0), (0, 1), (1, 1)] := by
      unfold regionPixels regionCols regionRows
      rw [hx1, hx2, hy1, hy2]
      decide
    show (regionSet blackImage2 normBox \ (∅ ∪ unionRegions blackImage2 [])).card = 4
    rw [regionSet, hpix]
    decide

/-- C7: `floodFill` reports "no region" (`none`), never an error, when the
seed is out of bounds or when the seed pixel's alpha is below the ~5%
opacity floor, and it returns a rectangle only when the visited set of the
flood grows to at least `minRegionSize` pixels. -/
theorem floodFill_failure_modes (img : ImageData) (startX startY : ℤ)
    (tol : ℚ) (mrs : ℕ) :
    ((startX < 0 ∨ (img.width : ℤ) ≤ startX ∨ startY < 0 ∨
        (img.height : ℤ) ≤ startY) →
      floodFill img startX startY tol mrs = none) ∧
    (¬ (startX < 0 ∨ (img.width : ℤ) ≤ startX ∨ startY < 0 ∨
        (img.height : ℤ) ≤ startY) →
      (img.pix startX.toNat startY.toNat).a < 13 →
      floodFill img startX startY tol mrs = none) ∧
    (∀ bb, floodFill img startX startY tol mrs = some bb →
      mrs ≤ (floodLoop img (img.pix startX.toNat startY.toNat).r
          (img.pix startX.toNat startY.toNat).g
          (img.pix startX.toNat startY.toNat).b tol
          [(startX, startY)] ∅ ⟨startX, startX, startY, startY⟩).1.card) := by
  refine ⟨fun h => ?_, fun hin htr => ?_, fun bb hsome => ?_⟩
  · unfold floodFill
    rw [if_pos h]
  · unfold floodFill
    rw [if_neg hin]
    simp only [if_pos htr]
  · unfold floodFill at hsome
    split_ifs at hsome
    simp at hsome
    exact hsome.2.1

/-- Witness for `floodFill_failure_modes`: a seed left of a 2×2 raster. -/
theorem floodFill_failure_modes_witness :
    floodFill blackImage2 (-1) 0 30 10 = none :=
  (floodFill_failure_modes blackImage2 (-1) 0 30 10).1 (Or.inl (by norm_num))
